import Mathlib

/-!
Verification development for the `check-links` tool.

The definitions below are a shallow embedding of the Rust sources:
  * `src/link.rs`   — `Link::split_section`, `Link::_verify`, `Link::find_section`
  * `src/main.rs`   — the scan loop, the result aggregation and the exit status
  * `src/log.rs`    — the `Logger` level filter

Pure logic is translated to Lean functions; the filesystem and the network
are passed in explicitly (a `FS` record, an `HttpResult` value).  A Rust
`panic` caused by an `unwrap()` on an `Err` is modelled by a dedicated
constructor of the result type, so that it stays distinguishable from the
values the function can return normally.
-/

/-- The three-tier verification outcome, from `LinkStatus` in `src/link.rs`:
`Reachable`, `Questionable(String)`, `Unreachable(Option<String>)`. -/
inductive LinkStatus
  | Reachable
  | Questionable (reason : String)
  | Unreachable (reason : Option String)
deriving DecidableEq, Repr

/-- The possible outcomes of the HEAD request issued for an `Http` link in
`Link::_verify` (`src/link.rs`): either a response with a numeric status
code, or an error, which is either `isahc::Error::Timeout` or any other
transport/connection failure. -/
inductive HttpResult
  | response (status : Nat)
  | timeoutError
  | otherError
deriving DecidableEq, Repr

/-- The `LinkKind::Http` arm of `Link::_verify` (`src/link.rs`, lines 66-101):
the match on the response status code, and the match on the request error. -/
def verifyHttp : HttpResult → LinkStatus
  | .response status =>
      if status = 200 then .Reachable
      else if status = 302 then .Reachable
      else if status = 401 then .Questionable ("received status code " ++ toString status)
      else if status = 403 then .Questionable ("received status code " ++ toString status)
      else if status = 405 then .Questionable ("received status code " ++ toString status)
      else if status = 406 then .Questionable ("received status code " ++ toString status)
      else .Unreachable (some ("received status code " ++ toString status))
  | .timeoutError => .Unreachable (some "timeout error")
  | .otherError => .Unreachable none

/-- The character class `[A-Za-z0-9_-]` of the section regex
`^(.*)#+([A-Za-z0-9_-]+)$` in `Link::split_section` (`src/link.rs`). -/
def sectionChar (c : Char) : Bool :=
  c.isAlpha || c.isDigit || c == '_' || c == '-'

/-- `Link::split_section` (`src/link.rs`, lines 46-62).  The Rust code applies
the anchored regex `^(.*)#+([A-Za-z0-9_-]+)$` with leftmost-first (greedy)
capture semantics: group 1 (`.*`) is maximised, so group 2 is exactly the
maximal trailing run of `[A-Za-z0-9_-]` characters, the `#+` consumes the
single `#` immediately before it, and everything earlier — further `#`
characters included — lands in group 1.  The match fails (no section)
when that trailing run is empty or the character before it is not `#`.
When group 1 is empty the base is reported absent. -/
def split_section (raw : String) : Option String × Option String :=
  match raw.data.reverse.dropWhile sectionChar, raw.data.reverse.takeWhile sectionChar with
  | c :: baseRev, tok =>
      if c = '#' then
        if tok = [] then (some raw, none)
        else if baseRev = [] then (none, some (String.mk tok.reverse))
        else (some (String.mk baseRev.reverse), some (String.mk tok.reverse))
      else (some raw, none)
  | _, _ => (some raw, none)

/-- Paths are modelled as lists of components. -/
abbrev RPath := List String

/-- `std::path::Path::parent`: `None` for an empty path, otherwise the path
with the last component removed. -/
def RPath.parent (p : RPath) : Option RPath :=
  match p with
  | [] => none
  | _ => some p.dropLast

/-- `dir.join(base)` with `base` kept as a single component. -/
def RPath.join (p : RPath) (base : String) : RPath := p ++ [base]

/-- The filesystem as seen by `Link::_verify`: an existence test
(`full_path.exists()`) and a read giving the file's lines, `none` when the
file cannot be read. -/
structure FS where
  pathExists : RPath → Bool
  readFile : RPath → Option (List String)

/-- `isPre needle hay`: the first list is an initial segment of the second. -/
def isPre : List Char → List Char → Bool
  | [], _ => true
  | _ :: _, [] => false
  | a :: as, b :: bs => a == b && isPre as bs

/-- `containsSub needle hay`: some suffix of `hay` starts with `needle`,
i.e. `needle` occurs inside `hay` as a contiguous run. -/
def containsSub (needle : List Char) : List Char → Bool
  | [] => needle.isEmpty
  | c :: rest => isPre needle (c :: rest) || containsSub needle rest

/-- Result of `Link::find_section` (`src/link.rs`, lines 163-180) as actually
executed.  `ok found` is the `Ok(found)` return value.  `panicked` models the
`searcher.search_path(..).unwrap()` on line 169-178: when the target file
cannot be read, `search_path` returns an I/O error and the `unwrap()` aborts
the task instead of returning.  (The `Err` the Rust signature can return
comes only from compiling the matcher, which cannot fail for a term drawn
from `[A-Za-z0-9_ ]`, the alphabet of every section name after `-` is
replaced by a space.) -/
inductive FindResult
  | ok (found : Bool)
  | panicked
deriving DecidableEq, Repr

/-- The normalization `section.replace("-", " ")` of `Link::find_section`:
the pattern is the single character `-`, so the replacement is a character
map. -/
def normChar (c : Char) : Char := if c = '-' then ' ' else c

/-- Lower-casing a character sequence: the effect of the matcher's
`case_insensitive(true)` flag on the ASCII alphabet of section terms and on
the scanned lines. -/
def lowerData (l : List Char) : List Char := l.map Char.toLower

/-- `Link::find_section` (`src/link.rs`): build a case-insensitive matcher
for the section name with `-` replaced by `" "`, scan the file line by line,
report whether any line matched.  The matcher term is a literal over
`[A-Za-z0-9_ ]`, so the regex search is a case-insensitive substring search,
modelled by lower-casing both the term and each line. -/
def find_section (fs : FS) (path : RPath) (sec : String) : FindResult :=
  match fs.readFile path with
  | none => .panicked
  | some lines =>
      .ok (lines.any (fun l =>
        containsSub (lowerData (sec.data.map normChar)) (lowerData l.data)))

/-- Outcome of running `Link::_verify` on a `Local` link: either a computed
`LinkStatus`, or the task aborted because `find_section` panicked. -/
inductive VerifyOutcome
  | status (s : LinkStatus)
  | panicked
deriving DecidableEq, Repr

/-- The `LinkKind::Local` arm of `Link::_verify` (`src/link.rs`, lines
103-155).  `dir` is the parent of the referring file, or `./` when there is
none; the raw text is split into `(base, section)`; with no section the
status is decided by existence of `dir.join(base)`; with a section,
`find_section` runs on the joined target (when the base is present and the
target exists) or on the referring file itself (when the base is absent).
The Rust `Err(e)` arms after `find_section` (which would yield
`Questionable`) are unreachable: the only `Err` `find_section` can return is
a matcher-build failure, impossible for section tokens over `[A-Za-z0-9_-]`;
a file-read failure panics inside `find_section` instead. -/
def verifyLocal (fs : FS) (file : RPath) (raw : String) : VerifyOutcome :=
  let dir := match RPath.parent file with
    | some d => d
    | none => ["."]
  match split_section raw with
  | (base, none) =>
      match base with
      | some b =>
          let full_path := RPath.join dir b
          if fs.pathExists full_path then .status .Reachable
          else .status (.Unreachable none)
      | none => .status (.Unreachable none)
  | (base, some s) =>
      match base with
      | some b =>
          let full_path := RPath.join dir b
          if fs.pathExists full_path then
            match find_section fs full_path s with
            | .ok true => .status .Reachable
            | .ok false => .status (.Questionable ("failed to resolve section #" ++ s))
            | .panicked => .panicked
          else .status (.Unreachable none)
      | none =>
          match find_section fs file s with
          | .ok true => .status .Reachable
          | .ok false => .status (.Questionable ("failed to resolve section #" ++ s))
          | .panicked => .panicked

/-- The scan loop of `main` (`src/main.rs`, lines 101-125) at the level the
claims need: for each file, run the extraction pass (`DocFile::iter_links`)
and collect the raw links it yields.  The `?` after `doc_file.iter_links(..)`
in `main` propagates an extraction error out of `main` immediately, so the
loop is the fail-fast fold below: the first file whose extraction fails
makes the whole run return that error, and the remaining files are never
scanned. -/
def scanAll (extract : RPath → Except String (List String)) :
    List RPath → Except String (List String)
  | [] => .ok []
  | p :: rest => do
      let links ← extract p
      let more ← scanAll extract rest
      pure (links ++ more)

/-- Log levels from `src/log.rs` (`Level`), in declaration order, so that
`Level as i32` is `DEBUG = 0, INFO = 1, WARNING = 2, ERROR = 3`. -/
inductive Level
  | DEBUG
  | INFO
  | WARNING
  | ERROR
deriving DecidableEq, Repr

/-- `Level as i32` (`src/log.rs`). -/
def levelNum : Level → Nat
  | .DEBUG => 0
  | .INFO => 1
  | .WARNING => 2
  | .ERROR => 3

/-- `Logger::default` (`src/log.rs`, lines 20-26): the verbosity count from
the command line is mapped to the logger's minimum level. -/
def levelOf (verbosity : Nat) : Level :=
  match verbosity with
  | 0 => .ERROR
  | 1 => .WARNING
  | 2 => .INFO
  | _ => .DEBUG

/-- The display condition of `Logger::log` (`src/log.rs`, line 42): a message
is written only when `(level as i32) >= (self.level as i32)`. -/
def shouldLog (msgLevel : Level) (loggerLevel : Level) : Bool :=
  levelNum loggerLevel ≤ levelNum msgLevel

/-- `maybe_pluralize` (`src/main.rs`, lines 44-49). -/
def maybe_pluralize (n : Nat) : String :=
  match n with
  | 1 => ""
  | _ => "s"

/-- The summary line format of `main` (`src/main.rs`, lines 156-175). -/
def summaryLine (nErrors nWarnings nLinks : Nat) : String :=
  toString nErrors ++ " error" ++ maybe_pluralize nErrors ++ ", " ++
  toString nWarnings ++ " warning" ++ maybe_pluralize nWarnings ++ " out of " ++
  toString nLinks ++ " link" ++ maybe_pluralize nLinks ++ " found"

/-- `LinkStatus::Unreachable(_)` test: the statuses counted by `n_errors`
in `main` (`src/main.rs`, lines 142-148). -/
def isUnreachable : LinkStatus → Bool
  | .Unreachable _ => true
  | _ => false

/-- `LinkStatus::Questionable(_)` test: the statuses counted by `n_warnings`
in `main` (`src/main.rs`, lines 138-141). -/
def isQuestionable : LinkStatus → Bool
  | .Questionable _ => true
  | _ => false

/-- What the final stage of `main` produces: the message handed to the
logger (with its level) and the process exit code. -/
structure RunResult where
  lines : List (Level × String)
  exitCode : Nat
deriving DecidableEq, Repr

/-- The aggregation at the end of `main` (`src/main.rs`, lines 131-178),
applied to the verified statuses delivered through the channel (each
extracted link is verified and delivered exactly once, so `n_links` is the
length of the list).  `n_errors` counts `Unreachable`, `n_warnings` counts
`Questionable`.  Zero links: log `"No links found"` at INFO, exit 0.
Otherwise: with any error, log the summary at ERROR and exit 1
(`std::process::exit(1)`); with none, log the summary at INFO and exit 0. -/
def runFinal (statuses : List LinkStatus) : RunResult :=
  let nErrors := statuses.countP (fun s => isUnreachable s)
  let nWarnings := statuses.countP (fun s => isQuestionable s)
  let nLinks := statuses.length
  if nLinks = 0 then
    ⟨[(.INFO, "No links found")], 0⟩
  else if 0 < nErrors then
    ⟨[(.ERROR, summaryLine nErrors nWarnings nLinks)], 1⟩
  else
    ⟨[(.INFO, summaryLine nErrors nWarnings nLinks)], 0⟩

/-- The messages of a `RunResult` actually written to the terminal at a given
verbosity: those passing the `Logger::log` level filter. -/
def displayed (verbosity : Nat) (r : RunResult) : List String :=
  (r.lines.filter (fun m => shouldLog m.1 (levelOf verbosity))).map (fun m => m.2)

/-! ### Helper lemmas -/

theorem isPre_refl (l : List Char) : isPre l l = true := by
  induction l with
  | nil => rfl
  | cons a as ih => simp [isPre, ih]

theorem containsSub_of_suffix (pre needle : List Char) :
    containsSub needle (pre ++ needle) = true := by
  induction pre with
  | nil =>
      cases needle with
      | nil => rfl
      | cons c cs => simp [containsSub, isPre_refl]
  | cons c cs ih => simp [containsSub, ih]

theorem takeWhile_all_stop {α : Type} (p : α → Bool) (l1 : List α) (c : α) (l2 : List α)
    (h1 : ∀ x ∈ l1, p x = true) (h2 : p c = false) :
    (l1 ++ c :: l2).takeWhile p = l1 := by
  induction l1 with
  | nil => simp [List.takeWhile_cons, h2]
  | cons a as ih =>
      have ha : p a = true := h1 a (by simp)
      simp [List.takeWhile_cons, ha, ih (fun x hx => h1 x (by simp [hx]))]

theorem dropWhile_all_stop {α : Type} (p : α → Bool) (l1 : List α) (c : α) (l2 : List α)
    (h1 : ∀ x ∈ l1, p x = true) (h2 : p c = false) :
    (l1 ++ c :: l2).dropWhile p = c :: l2 := by
  induction l1 with
  | nil => simp [List.dropWhile_cons, h2]
  | cons a as ih =>
      have ha : p a = true := h1 a (by simp)
      simp [List.dropWhile_cons, ha, ih (fun x hx => h1 x (by simp [hx]))]

theorem string_mk_data (s : String) : String.mk s.data = s := rfl

theorem string_eq_empty_iff (s : String) : s = "" ↔ s.data = [] := by
  constructor
  · intro h
    rw [h]
  · intro h
    cases s with
    | mk d =>
        have hd : d = [] := h
        subst hd
        rfl

/-- Exhaustive shape analysis of `split_section`: the result is one of
`(some base, none)`, `(none, some tok)`, `(some base, some tok)`. -/
theorem split_section_cases (raw : String) :
    (∃ b, split_section raw = (some b, none)) ∨
    (∃ t, split_section raw = (none, some t)) ∨
    (∃ b t, split_section raw = (some b, some t)) := by
  unfold split_section
  split
  · split
    · split
      · exact .inl ⟨raw, rfl⟩
      · split
        · exact .inr (.inl ⟨_, rfl⟩)
        · exact .inr (.inr ⟨_, _, rfl⟩)
    · exact .inl ⟨raw, rfl⟩
  · exact .inl ⟨raw, rfl⟩

/-! ### Claim theorems -/

/-- C1: the process exit status is 1 exactly when at least one verified link
is `Unreachable`, and 0 otherwise; `Reachable` and `Questionable` links never
make it non-zero. -/
theorem run_exit_code_unreachable (statuses : List LinkStatus) :
    (runFinal statuses).exitCode = if statuses.any isUnreachable then 1 else 0 := by
  unfold runFinal
  by_cases hn : statuses.length = 0
  · rw [List.length_eq_zero] at hn
    subst hn
    simp
  · by_cases ha : statuses.any isUnreachable = true
    · have hc : 0 < statuses.countP (fun s => isUnreachable s) :=
        List.countP_pos_iff.mpr (List.any_eq_true.mp ha)
      simp [hn, hc, ha]
    · have hc : ¬ 0 < statuses.countP (fun s => isUnreachable s) := by
        intro hpos
        exact ha (List.any_eq_true.mpr (List.countP_pos_iff.mp hpos))
      simp [hn, hc, ha]

/-- C2 counterexample: 201 is a 2xx status code, but the code maps it to
`Unreachable`, not `Reachable` — only 200 and 302 are accepted. -/
theorem http_status_201_not_reachable :
    verifyHttp (HttpResult.response 201) ≠ LinkStatus.Reachable := by decide

/-- C2 (amended): a response status yields `Reachable` exactly for 200
and 302; 401, 403, 405 and 406 yield `Questionable`; every other code —
other 2xx codes such as 201 included — yields `Unreachable` with a
diagnostic that contains the status code. -/
theorem verifyHttp_policy (s : Nat) :
    (verifyHttp (.response s) = .Reachable ↔ (s = 200 ∨ s = 302)) ∧
    ((s = 401 ∨ s = 403 ∨ s = 405 ∨ s = 406) →
      verifyHttp (.response s) = .Questionable ("received status code " ++ toString s)) ∧
    (¬(s = 200 ∨ s = 302 ∨ s = 401 ∨ s = 403 ∨ s = 405 ∨ s = 406) →
      verifyHttp (.response s) = .Unreachable (some ("received status code " ++ toString s)) ∧
      containsSub (toString s).data ("received status code " ++ toString s).data = true) := by
  refine ⟨?_, ?_, ?_⟩
  · constructor
    · intro h
      by_contra hne
      push_neg at hne
      obtain ⟨h200, h302⟩ := hne
      simp only [verifyHttp] at h
      rw [if_neg h200, if_neg h302] at h
      split_ifs at h
    · rintro (rfl | rfl) <;> rfl
  · rintro (rfl | rfl | rfl | rfl) <;> rfl
  · intro hne
    push_neg at hne
    obtain ⟨h200, h302, h401, h403, h405, h406⟩ := hne
    constructor
    · simp only [verifyHttp]
      rw [if_neg h200, if_neg h302, if_neg h401, if_neg h403, if_neg h405, if_neg h406]
    · rw [String.data_append]
      exact containsSub_of_suffix _ _

/-- C2 witness: the amended policy applied at status 404. -/
theorem verifyHttp_policy_witness :
    (¬((404 : Nat) = 200 ∨ (404 : Nat) = 302 ∨ (404 : Nat) = 401 ∨ (404 : Nat) = 403 ∨
       (404 : Nat) = 405 ∨ (404 : Nat) = 406)) ∧
    verifyHttp (HttpResult.response 404) = .Unreachable (some "received status code 404") ∧
    containsSub "404".data "received status code 404".data = true := by
  refine ⟨by decide, ?_, ?_⟩
  · exact (((verifyHttp_policy 404).2.2 (by decide)).1).trans (by decide)
  · exact (by decide : containsSub "404".data "received status code 404".data = true)

/-- C7 counterexample: the timeout diagnostic is the string
`"timeout error"`, not the string `"timeout"`. -/
theorem timeout_diagnostic_not_exactly_timeout :
    verifyHttp HttpResult.timeoutError ≠ LinkStatus.Unreachable (some "timeout") := by decide

/-- C7 (amended): a timed-out HEAD request yields `Unreachable` with the
diagnostic `"timeout error"` (which contains `"timeout"`), and any other
transport or connection failure yields `Unreachable` with no diagnostic. -/
theorem verifyHttp_error_policy :
    verifyHttp HttpResult.timeoutError = LinkStatus.Unreachable (some "timeout error") ∧
    verifyHttp HttpResult.otherError = LinkStatus.Unreachable none ∧
    containsSub "timeout".data "timeout error".data = true := by decide

/-- C10: `split_section` never reports both the base and the section absent,
so the `(None, None)` fallback arm of the `Local` verification match (which
would yield an `Unreachable` there) can never be taken. -/
theorem split_section_not_both_none (raw : String) :
    ((split_section raw).1.isSome || (split_section raw).2.isSome) = true := by
  rcases split_section_cases raw with ⟨b, h⟩ | ⟨t, h⟩ | ⟨b, t, h⟩ <;> rw [h] <;> rfl

/-- C3: for a `Local` link whose split yields a present base, the resolution
directory is the parent of the referring file (or the current directory when
there is no parent), the target is that directory joined with the base, and
the status is `Reachable` when the target exists and `Unreachable` with no
diagnostic when it does not. -/
theorem verifyLocal_base_only (fs : FS) (file : RPath) (raw b : String)
    (h : split_section raw = (some b, none)) :
    verifyLocal fs file raw =
      .status (if fs.pathExists (RPath.join ((RPath.parent file).getD ["."]) b)
               then LinkStatus.Reachable else .Unreachable none) := by
  unfold verifyLocal
  rw [h]
  cases hp : RPath.parent file <;> simp only [Option.getD] <;> split <;> rfl

/-- A filesystem on which nothing exists and nothing can be read. -/
def fsNone : FS := ⟨fun _ => false, fun _ => none⟩

/-- C3 witness: the local link `missing.md` from `README.md` on a filesystem
where the target does not exist resolves to `Unreachable` with no
diagnostic. -/
theorem verifyLocal_base_only_witness :
    split_section "missing.md" = (some "missing.md", none) ∧
    verifyLocal fsNone ["README.md"] "missing.md" = .status (.Unreachable none) := by
  refine ⟨by decide, ?_⟩
  exact (verifyLocal_base_only fsNone ["README.md"] "missing.md" "missing.md"
    (by decide)).trans (by decide)

/-- Filesystem for the C4 evaluation: seen from `docs/a.md`, the local
target `./t.md` exists and is readable (holding the heading
`## Setup Guide`), and the local target `./u.md` exists but cannot be read. -/
def fsDocs : FS :=
  ⟨fun p => p == ["docs", "./t.md"] || p == ["docs", "./u.md"] || p == ["docs", "a.md"],
   fun p => if p = ["docs", "./t.md"] then some ["## Setup Guide"]
            else if p = ["docs", "a.md"] then some ["# Intro", "body text"]
            else none⟩

/-- C4: the section search runs on the joined target when a base is present
(first two conjuncts) and on the referring file itself when the base is
absent (third conjunct); a match yields `Reachable`, a completed search with
no match yields `Questionable` naming the section.  The last conjunct is the
failing input of the claim: when the section target exists but cannot be
read, the code panics inside `find_section` (the `unwrap()` on the search
result) instead of producing the `Questionable` status with the error detail
that the dead `Err` arms of `Link::_verify` would build. -/
theorem verifyLocal_section_search :
    verifyLocal fsDocs ["docs", "a.md"] "./t.md#setup-guide" = .status .Reachable ∧
    verifyLocal fsDocs ["docs", "a.md"] "./t.md#other-sec" =
      .status (.Questionable "failed to resolve section #other-sec") ∧
    verifyLocal fsDocs ["docs", "a.md"] "#intro" = .status .Reachable ∧
    verifyLocal fsDocs ["docs", "a.md"] "./u.md#setup-guide" = .panicked := by
  refine ⟨by decide, by decide, by decide, by decide⟩

/-- Filesystem for the C5 evaluation: `notes.md` is readable with a single
heading line, every other path is unreadable. -/
def fsNotes : FS :=
  ⟨fun _ => true,
   fun p => if p = ["notes.md"] then some ["# My Target Heading", "body"] else none⟩

/-- C5: `find_section` normalizes the name (hyphens to spaces), searches the
lines case-insensitively and reports `true` on a match and `false` when the
whole file has no match (first two conjuncts) — but on the claim's failing
input, an unreadable target file, it panics (the `unwrap()` on the
`search_path` result) instead of returning a distinct failure value. -/
theorem find_section_behaviour :
    find_section fsNotes ["notes.md"] "my-target-heading" = .ok true ∧
    find_section fsNotes ["notes.md"] "absent-heading" = .ok false ∧
    find_section fsNotes ["other.md"] "my-target-heading" = .panicked := by
  refine ⟨by decide, by decide, by decide⟩

/-- An extraction pass for which the file `bad.md` is unreadable and every
other file yields one link. -/
def extractDemo : RPath → Except String (List String) :=
  fun p => if p = ["bad.md"] then .error "unreadable" else .ok ["https://example.com"]

/-- C6 counterexample: when the first file's extraction fails, the whole
scan returns that error — the second file, which on its own yields a link,
is never reached and its link is lost. -/
theorem scan_abort_counterexample :
    scanAll extractDemo [["bad.md"], ["good.md"]] = .error "unreadable" ∧
    scanAll extractDemo [["good.md"]] = .ok ["https://example.com"] :=
  ⟨rfl, rfl⟩

/-- C6 (amended): an extraction failure on one file is propagated by the `?`
in `main` as a run-level failure: the scan aborts at that file, whatever
files remain. -/
theorem scanAll_aborts_on_error (extract : RPath → Except String (List String))
    (p : RPath) (rest : List RPath) (e : String) (h : extract p = .error e) :
    scanAll extract (p :: rest) = .error e := by
  unfold scanAll
  rw [h]
  rfl

/-- C6 witness: the abort theorem applied to a concrete failing first file. -/
theorem scanAll_aborts_witness :
    extractDemo ["bad.md"] = .error "unreadable" ∧
    scanAll extractDemo [["bad.md"], ["good.md"], ["more.md"]] = .error "unreadable" :=
  ⟨rfl, scanAll_aborts_on_error extractDemo ["bad.md"] [["good.md"], ["more.md"]]
    "unreadable" rfl⟩

/-- C8 counterexample: on `"##sec"` the remainder before the first run of
`#` characters is empty, so the claim requires the base to be absent; the
greedy regex instead puts the extra `#` into the base, giving `some "#"`. -/
theorem split_section_double_hash :
    split_section "##sec" = (some "#", some "sec") ∧
    ((some "#" : Option String) ≠ none) := by
  refine ⟨by decide, by decide⟩

/-- C8 (amended): the split recognizes a trailing suffix of exactly one `#`
followed by a non-empty token of letters, digits, underscores and hyphens;
the token is the maximal such trailing run, and everything before that last
`#` — further `#` characters included — is the base, absent exactly when it
is empty (first conjunct).  The second conjunct is completeness: every raw
text either admits such a decomposition `b ++ "#" ++ t` (and then the first
conjunct dictates the split), or it splits into the whole raw text with the
section absent — so whenever no such suffix exists, `#` characters elsewhere
in the text included (`"abc#"`, `"a#b.md"`), the base is the whole raw text
and the section is absent. -/
theorem split_section_greedy :
    (∀ b t : String, t.data ≠ [] → (∀ c ∈ t.data, sectionChar c = true) →
      split_section (b ++ "#" ++ t) = ((if b = "" then none else some b), some t)) ∧
    (∀ raw : String,
      split_section raw = (some raw, none) ∨
      ∃ b t : String, t.data ≠ [] ∧ (∀ c ∈ t.data, sectionChar c = true) ∧
        raw = b ++ "#" ++ t) := by
  constructor
  · intro b t ht hall
    have hdata : (b ++ "#" ++ t).data = b.data ++ '#' :: t.data := by
      simp [String.data_append]
    have hrev : (b ++ "#" ++ t).data.reverse = t.data.reverse ++ '#' :: b.data.reverse := by
      rw [hdata]
      simp
    have hallrev : ∀ x ∈ t.data.reverse, sectionChar x = true := by
      intro x hx
      exact hall x (List.mem_reverse.mp hx)
    have hhash : sectionChar '#' = false := rfl
    have htake : (b ++ "#" ++ t).data.reverse.takeWhile sectionChar = t.data.reverse := by
      rw [hrev]
      exact takeWhile_all_stop sectionChar t.data.reverse '#' b.data.reverse hallrev hhash
    have hdrop : (b ++ "#" ++ t).data.reverse.dropWhile sectionChar = '#' :: b.data.reverse := by
      rw [hrev]
      exact dropWhile_all_stop sectionChar t.data.reverse '#' b.data.reverse hallrev hhash
    unfold split_section
    rw [htake, hdrop]
    dsimp only
    have htok : ¬ t.data.reverse = [] := fun hh => ht (List.reverse_eq_nil_iff.mp hh)
    by_cases hb : b = ""
    · have hbrev : b.data.reverse = [] := by
        rw [(string_eq_empty_iff b).mp hb]
        rfl
      rw [if_pos rfl, if_neg htok, if_pos hbrev, if_pos hb,
        List.reverse_reverse, string_mk_data]
    · have hbrev : ¬ b.data.reverse = [] := by
        intro hh
        exact hb ((string_eq_empty_iff b).mpr (List.reverse_eq_nil_iff.mp hh))
      rw [if_pos rfl, if_neg htok, if_neg hbrev, if_neg hb,
        List.reverse_reverse, List.reverse_reverse, string_mk_data, string_mk_data]
  · intro raw
    cases hd : raw.data.reverse.dropWhile sectionChar with
    | nil =>
        left
        unfold split_section
        rw [hd]
    | cons c cs =>
        by_cases hc : c = '#'
        · subst hc
          by_cases htok : raw.data.reverse.takeWhile sectionChar = []
          · left
            unfold split_section
            rw [hd]
            dsimp only
            rw [if_pos rfl, if_pos htok]
          · right
            set tk := raw.data.reverse.takeWhile sectionChar with htk
            refine ⟨String.mk cs.reverse, String.mk tk.reverse, ?_, ?_, ?_⟩
            · intro hh
              exact htok (List.reverse_eq_nil_iff.mp hh)
            · intro ch hch
              have hmem : ch ∈ tk := List.mem_reverse.mp hch
              rw [htk] at hmem
              exact List.mem_takeWhile_imp hmem
            · apply String.ext
              have h1 : tk ++ '#' :: cs = raw.data.reverse := by
                rw [htk, ← hd]
                exact List.takeWhile_append_dropWhile sectionChar raw.data.reverse
              have h2 : raw.data = cs.reverse ++ '#' :: tk.reverse := by
                conv_lhs => rw [← List.reverse_reverse raw.data]
                rw [← h1]
                simp
              rw [h2]
              simp [String.data_append]
        · left
          unfold split_section
          rw [hd]
          dsimp only
          rw [if_neg hc]

/-- C8 witness: the amended split applied to `"a#sec"`. -/
theorem split_section_greedy_witness :
    ("sec" : String).data ≠ [] ∧
    split_section ("a" ++ "#" ++ "sec") = (some "a", some "sec") := by
  refine ⟨by decide, ?_⟩
  exact (split_section_greedy.1 "a" "sec" (by decide) (by decide)).trans (by decide)

/-- C9 counterexample: a zero-link run hands `"No links found"` (note the
spelling) to the logger at INFO level and exits 0, but at the default
verbosity (0, minimum level ERROR) the message is filtered out, so nothing
is shown to the user. -/
theorem no_links_invisible_at_default_verbosity :
    (runFinal []).lines = [(Level.INFO, "No links found")] ∧
    (runFinal []).exitCode = 0 ∧
    displayed 0 (runFinal []) = [] := by
  refine ⟨by decide, by decide, by decide⟩

/-- C9 (amended): a run with zero discovered links logs `"No links found"`
at INFO level and exits 0; the message is actually displayed exactly when
the verbosity is at least 2. -/
theorem no_links_summary (v : Nat) :
    (runFinal []).exitCode = 0 ∧
    (runFinal []).lines = [(Level.INFO, "No links found")] ∧
    displayed v (runFinal []) = if 2 ≤ v then ["No links found"] else [] := by
  refine ⟨by decide, by decide, ?_⟩
  match v with
  | 0 => decide
  | 1 => decide
  | 2 => decide
  | (n + 3) =>
      have h2 : 2 ≤ n + 3 := by omega
      rw [if_pos h2]
      rfl
